import Mathlib

/-!
Shallow embedding of `preprocessy.feature_selection._selectKBest` (class
`SelectKBest`) and proofs about its behaviour.

Modelling choices:
* A pandas `DataFrame` is modelled as a `List α` of columns; a column value
  of type `α` carries its full row content, so selecting a column preserves
  all rows by construction.  A pandas `Series` is a `List β` of values.
* Scores and p-values (numpy float arrays in the source) are modelled as
  `List Int`: the only operation the code performs on scores is comparison
  in a stable ascending `np.argsort`, which is fully captured by any
  linearly ordered carrier.
* Python exceptions are an explicit error type `PyError`; a method that can
  raise returns `Except PyError _` (for `transform`, which does not mutate
  the object) or a pair of the post-call object state and an optional error
  (for `fit`, which mutates `self` as it goes).
* The scoring functions `f_classif` / `f_regression` are external black
  boxes (`sklearn`), taken as parameters `fc` / `fr` of the development;
  the value stored in the `score_func` slot is modelled by `SFVal`, which
  also covers arbitrary user callables and non-callable Python values.
-/

namespace SelectKBest

/-- Python exception classes raised (directly or by attribute access) in
`_selectKBest.py`, together with their message. -/
inductive PyError where
  | typeError (msg : String)
  | valueError (msg : String)
  | attributeError (msg : String)
deriving DecidableEq

/-- Message of the `TypeError` raised by `fit` when `X` is not a DataFrame
(source lines 96-99). -/
def xTypeMsg : String :=
  "Feature dataframe is not a valid dataframe.\nExpected object type: pandas.core.frame.DataFrame"

/-- Message of the `TypeError` raised by `fit` when `y` is not a Series
(source lines 101-104). -/
def yTypeMsg : String :=
  "Target column is not a valid series.\nExpected object type: pandas.core.series.Series"

/-- Message of the `TypeError` raised by `fit` when the (resolved)
`score_func` is not callable (source lines 112-115): the f-string
interpolates `str(self.score_func)` and `str(type(self.score_func))`. -/
def sfTypeMsg (value tyName : String) : String :=
  "The score function should be a callable, " ++ value ++ " of type (" ++ tyName ++ ") was passed."

/-- Message of the `ValueError` raised by `__get_mask` when `transform` is
called before a successful `fit` and `k != 0` (source lines 67-70). -/
def notFittedMsg : String :=
  "self.scores is None. Please fit the estimator before calling transform."

/-- Message of the `ValueError` raised by `transform` when the mask selects
no features (source lines 145-148). -/
def noFeatMsg : String :=
  "No features were selected: either the data is too noisy or the selection test too strict."

/-- Message of the `ValueError` raised by `transform` when the mask length
differs from the column count of `X` (source lines 150-151). -/
def shapeMsg : String :=
  "X has a different shape than during fitting."

/-- Message of the `AttributeError` Python raises in `__get_mask` when
`self.k == 0` and `self.scores is None`: line 65 evaluates
`self.scores.shape` before the `None` check on line 67.  (Python renders the
class and attribute names quoted.) -/
def noneShapeMsg : String :=
  "NoneType object has no attribute shape"

/-- Result of a scoring function: either a single scores array, or a
(scores, pvalues) pair — the two shapes `fit` distinguishes with
`isinstance(score_func_ret, (list, tuple))` (source lines 117-123). -/
inductive ScoreRet where
  | single (scores : List Int)
  | pair (scores pvalues : List Int)

/-- A Python value occupying the `score_func` slot: one of the two
auto-selectable sklearn scorers, an arbitrary user-supplied callable, or a
non-callable value (carrying its `str()` rendering and the rendering of its
type, as interpolated into the error message). -/
inductive SFVal (α β : Type) where
  | fClassif
  | fRegression
  | fn (f : List α → List β → ScoreRet)
  | nonCallable (value tyName : String)

/-- The mutable state of a `SelectKBest` instance (source `__init__`,
lines 49-52). -/
structure KBState (α β : Type) where
  k : Nat
  score_func : Option (SFVal α β)
  scores : Option (List Int)
  pvalues : Option (List Int)

/-- The `X` argument of `fit`: either an actual DataFrame (a list of
columns) or some other Python object (which fails the `isinstance` check). -/
inductive XInput (α : Type) where
  | df (cols : List α)
  | notDF (tyName : String)

/-- The `y` argument of `fit`: either an actual Series or some other
Python object. -/
inductive YInput (β : Type) where
  | series (vals : List β)
  | notSeries (tyName : String)

/-- `pandas.Series.nunique`: the number of distinct values of `y`. -/
def nunique {β : Type} [DecidableEq β] (ys : List β) : Nat :=
  ys.dedup.length

/-- Score-function resolution performed by `fit` (source lines 106-110):
when `score_func` is `None`, pick `f_classif` if `y.nunique() <= 15`, else
`f_regression`; otherwise keep the stored value. -/
def resolveSF {α β : Type} [DecidableEq β] (sf : Option (SFVal α β)) (ys : List β) : SFVal α β :=
  match sf with
  | none => if nunique ys ≤ 15 then .fClassif else .fRegression
  | some f => f

/-- Comparator used to model `np.argsort(scores, kind="stable")`: index `i`
precedes index `j` when its score is smaller, or the scores are equal and
`i ≤ j`.  Sorting the (distinct) indices `0, …, n-1` by this relation is
exactly a stable ascending argsort: ties keep their original order. -/
def idxLe (s : List Int) (i j : Nat) : Prop :=
  s.getD i 0 < s.getD j 0 ∨ (s.getD i 0 = s.getD j 0 ∧ i ≤ j)

instance (s : List Int) : DecidableRel (idxLe s) := fun i j =>
  inferInstanceAs (Decidable (s.getD i 0 < s.getD j 0 ∨ (s.getD i 0 = s.getD j 0 ∧ i ≤ j)))

instance (s : List Int) : IsTotal Nat (idxLe s) := by
  constructor
  intro a b
  simp only [idxLe]
  omega

instance (s : List Int) : IsTrans Nat (idxLe s) := by
  constructor
  intro a b c hab hbc
  simp only [idxLe] at *
  omega

instance (s : List Int) : IsAntisymm Nat (idxLe s) := by
  constructor
  intro a b hab hba
  simp only [idxLe] at *
  omega

/-- `np.argsort(s, kind="stable")`: the indices `0, …, len(s)-1` sorted by
score ascending, ties in original order (the `idxLe` comparator). -/
def argsort (s : List Int) : List Nat :=
  List.insertionSort (idxLe s) (List.range s.length)

/-- Python tail slice `l[-k:]` for `k ≥ 1`: the last `k` elements (the
whole list when `k ≥ len(l)`, matching numpy/Python clamping). -/
def lastK {α : Type} (l : List α) (k : Nat) : List α :=
  l.drop (l.length - k)

/-- The numpy scatter assignment `mask[idxs] = 1`: set every position
listed in `idxs` to `true`. -/
def setTrue (m : List Bool) (idxs : List Nat) : List Bool :=
  idxs.foldl (fun m i => m.set i true) m

/-- The mask built by `__get_mask` for `k ≠ 0` (source lines 72-74):
`mask = np.zeros(scores.shape, bool); mask[np.argsort(scores, kind="stable")[-k:]] = 1`. -/
def maskOf (s : List Int) (k : Nat) : List Bool :=
  setTrue (List.replicate s.length false) (lastK (argsort s) k)

/-- `SelectKBest.__get_mask` (source lines 54-75).  Note the source order:
the `k == 0` branch evaluates `self.scores.shape` *before* the
`self.scores is None` check, so an unfitted selector with `k == 0` hits a
Python `AttributeError`, not the `ValueError`. -/
def getMask (k : Nat) (scores : Option (List Int)) : Except PyError (List Bool) :=
  if k = 0 then
    match scores with
    | none => .error (.attributeError noneShapeMsg)
    | some s => .ok (List.replicate s.length false)
  else
    match scores with
    | none => .error (.valueError notFittedMsg)
    | some s => .ok (maskOf s k)

/-- `X.iloc[:, mask]`: keep the columns at positions where the boolean mask
is `true`, in original order. -/
def selectCols {γ : Type} (X : List γ) (mask : List Bool) : List γ :=
  (X.zip mask).filterMap (fun p => if p.2 then some p.1 else none)

/-- `SelectKBest.transform` (source lines 129-153): build the mask, raise
if it selects nothing, raise if its length differs from `X`'s column count,
else return the selected columns. -/
def transform {α β γ : Type} (st : KBState α β) (X : List γ) : Except PyError (List γ) :=
  match getMask st.k st.scores with
  | .error e => .error e
  | .ok mask =>
    if (mask.any fun b => b) = false then
      .error (.valueError noFeatMsg)
    else if mask.length ≠ X.length then
      .error (.valueError shapeMsg)
    else
      .ok (selectCols X mask)

/-- Store the scoring-function result into the state (source lines
117-125): a pair sets both `scores` and `pvalues`; a single array sets
`scores` and resets `pvalues` to `None`. -/
def storeRet {α β : Type} (st : KBState α β) (ret : ScoreRet) : KBState α β :=
  match ret with
  | .pair s p => { st with scores := some s, pvalues := some p }
  | .single s => { st with scores := some s, pvalues := none }

/-- `SelectKBest.fit` (source lines 77-127), parameterised by the external
sklearn scorers `fc = f_classif` and `fr = f_regression`.  Returns the
state of `self` after the call together with the raised error, if any
(mutations made before an exception are visible in the returned state). -/
def fit {α β : Type} [DecidableEq β] (fc fr : List α → List β → ScoreRet)
    (st : KBState α β) (X : XInput α) (Y : YInput β) :
    KBState α β × Option PyError :=
  match X with
  | .notDF _ => (st, some (.typeError xTypeMsg))
  | .df cols =>
    match Y with
    | .notSeries _ => (st, some (.typeError yTypeMsg))
    | .series ys =>
      let sf := resolveSF st.score_func ys
      let st1 := { st with score_func := some sf }
      match sf with
      | .nonCallable v t => (st1, some (.typeError (sfTypeMsg v t)))
      | .fClassif => (storeRet st1 (fc cols ys), none)
      | .fRegression => (storeRet st1 (fr cols ys), none)
      | .fn f => (storeRet st1 (f cols ys), none)

/-- `SelectKBest.fit_transform` (source lines 155-172):
`return self.fit(X, y).transform(X)`.  When `fit` raises, that error
propagates and `transform` never runs; when `fit` succeeds, `X` was
necessarily a DataFrame and `transform` runs on the same `X`.  (The final
case is unreachable: it models the `AttributeError` a non-DataFrame `X`
would hit inside `transform`.) -/
def fit_transform {α β : Type} [DecidableEq β] (fc fr : List α → List β → ScoreRet)
    (st : KBState α β) (X : XInput α) (Y : YInput β) :
    KBState α β × Except PyError (List α) :=
  match fit fc fr st X Y with
  | (st1, some e) => (st1, .error e)
  | (st1, none) =>
    match X with
    | .df cols => (st1, transform st1 cols)
    | .notDF _ => (st1, .error (.attributeError noneShapeMsg))

/-- The first scores component of a scoring-function result. -/
def retScores : ScoreRet → List Int
  | .single s => s
  | .pair s _ => s

/-- Specification-side characterisation of a stable ascending argsort of
`s` (spec: "Rank feature indices by `scores` ascending using a stable sort
(ties preserve original column order)"): `L` enumerates all feature
indices, in weakly ascending score order, with equal scores kept in
original (ascending index) order. -/
def IsStableArgsort (s : List Int) (L : List Nat) : Prop :=
  L.Perm (List.range s.length) ∧ L.Sorted (idxLe s)

/-! ### Lemmas about `argsort`, `lastK`, `setTrue`, `maskOf` -/

theorem argsort_perm (s : List Int) : (argsort s).Perm (List.range s.length) :=
  List.perm_insertionSort _ _

theorem argsort_sorted (s : List Int) : (argsort s).Sorted (idxLe s) :=
  List.sorted_insertionSort _ _

theorem argsort_isStable (s : List Int) : IsStableArgsort s (argsort s) :=
  ⟨argsort_perm s, argsort_sorted s⟩

theorem argsort_nodup (s : List Int) : (argsort s).Nodup :=
  ((argsort_perm s).nodup_iff).mpr (List.nodup_range _)

theorem argsort_length (s : List Int) : (argsort s).length = s.length :=
  ((argsort_perm s).length_eq).trans (List.length_range _)

theorem mem_argsort (s : List Int) (i : Nat) : i ∈ argsort s ↔ i < s.length := by
  rw [(argsort_perm s).mem_iff, List.mem_range]

/-- A stable ascending argsort is unique: any list satisfying
`IsStableArgsort` is the `argsort` of the embedding. -/
theorem argsort_unique (s : List Int) (L : List Nat) (h : IsStableArgsort s L) :
    L = argsort s :=
  List.eq_of_perm_of_sorted (h.1.trans (argsort_perm s).symm) h.2 (argsort_sorted s)

theorem lastK_sublist {α : Type} (l : List α) (k : Nat) : (lastK l k).Sublist l :=
  List.drop_sublist _ _

theorem mem_lastK_argsort_lt {s : List Int} {k i : Nat}
    (h : i ∈ lastK (argsort s) k) : i < s.length :=
  (mem_argsort s i).mp ((lastK_sublist _ _).mem h)

theorem lastK_argsort_nodup (s : List Int) (k : Nat) : (lastK (argsort s) k).Nodup :=
  (argsort_nodup s).sublist (lastK_sublist _ _)

theorem lastK_argsort_length (s : List Int) (k : Nat) :
    (lastK (argsort s) k).length = min k s.length := by
  have h := argsort_length s
  simp only [lastK, List.length_drop, h]
  omega

/-- When `k ≥ n`, the Python tail slice `argsort[-k:]` is the whole argsort. -/
theorem lastK_argsort_of_le (s : List Int) (k : Nat) (h : s.length ≤ k) :
    lastK (argsort s) k = argsort s := by
  have hl := argsort_length s
  simp only [lastK, hl]
  rw [Nat.sub_eq_zero_of_le h, List.drop_zero]

theorem setTrue_length (idxs : List Nat) (m : List Bool) :
    (setTrue m idxs).length = m.length := by
  induction idxs generalizing m with
  | nil => rfl
  | cons j rest ih =>
    show (setTrue (m.set j true) rest).length = m.length
    rw [ih, List.length_set]

/-- Semantics of the numpy scatter assignment: position `i` reads `true`
exactly when it was already `true` or is listed (in bounds) in `idxs`. -/
theorem setTrue_getD (idxs : List Nat) (m : List Bool)
    (hb : ∀ j ∈ idxs, j < m.length) (i : Nat) :
    (setTrue m idxs).getD i false = true ↔ (i ∈ idxs ∨ m.getD i false = true) := by
  induction idxs generalizing m with
  | nil => simp [setTrue]
  | cons j rest ih =>
    have hj : j < m.length := hb j (List.mem_cons_self _ _)
    have hb2 : ∀ x ∈ rest, x < (m.set j true).length := by
      intro x hx
      rw [List.length_set]
      exact hb x (List.mem_cons_of_mem _ hx)
    show (setTrue (m.set j true) rest).getD i false = true ↔ _
    rw [ih (m.set j true) hb2]
    rw [List.getD_eq_getElem?_getD, List.getElem?_set]
    by_cases hij : j = i
    · subst hij
      rw [if_pos rfl, if_pos hj]
      simp
    · rw [if_neg hij, ← List.getD_eq_getElem?_getD]
      constructor
      · rintro (h | h)
        · exact Or.inl (List.mem_cons_of_mem _ h)
        · exact Or.inr h
      · rintro (h | h)
        · rcases List.mem_cons.mp h with rfl | h2
          · exact absurd rfl hij
          · exact Or.inl h2
        · exact Or.inr h

theorem maskOf_length (s : List Int) (k : Nat) : (maskOf s k).length = s.length := by
  rw [maskOf, setTrue_length, List.length_replicate]

theorem getD_replicate_false (n i : Nat) :
    (List.replicate n false).getD i false = false := by
  rw [List.getD_eq_getElem?_getD, List.getElem?_replicate]
  by_cases h : i < n <;> simp [h]

/-- The mask of `__get_mask` (for `k ≠ 0`) reads `true` at `i` exactly when
`i` is among the last `k` entries of the stable ascending argsort. -/
theorem maskOf_getD (s : List Int) (k i : Nat) :
    (maskOf s k).getD i false = true ↔ i ∈ lastK (argsort s) k := by
  rw [maskOf, setTrue_getD _ _ (fun j hj => by
    rw [List.length_replicate]; exact mem_lastK_argsort_lt hj)]
  rw [getD_replicate_false]
  simp

theorem maskOf_eq_map (s : List Int) (k : Nat) :
    maskOf s k = (List.range s.length).map (fun i => decide (i ∈ lastK (argsort s) k)) := by
  apply List.ext_getElem
  · rw [maskOf_length, List.length_map, List.length_range]
  · intro i hi hi2
    rw [List.getElem_map, List.getElem_range]
    have hD : (maskOf s k).getD i false = (maskOf s k)[i] := by
      rw [List.getD_eq_getElem?_getD, List.getElem?_eq_getElem hi]
      rfl
    have hiff := maskOf_getD s k i
    rw [hD] at hiff
    by_cases hm : i ∈ lastK (argsort s) k
    · rw [decide_eq_true hm]
      exact hiff.mpr hm
    · rw [decide_eq_false hm]
      cases hv : (maskOf s k)[i]
      · rfl
      · exact absurd (hiff.mp hv) hm

/-- The mask of `__get_mask` has exactly `min k n_features` `true` entries. -/
theorem maskOf_count (s : List Int) (k : Nat) :
    (maskOf s k).count true = min k s.length := by
  rw [maskOf_eq_map, List.count_eq_countP, List.countP_map]
  have h1 : ((fun x => x == true) ∘ fun i => decide (i ∈ lastK (argsort s) k))
      = fun i => decide (i ∈ lastK (argsort s) k) := by
    funext i
    simp [Function.comp]
  rw [h1, List.countP_eq_length_filter]
  have hperm : ((List.range s.length).filter (fun i => decide (i ∈ lastK (argsort s) k))).Perm
      (lastK (argsort s) k) := by
    rw [List.perm_ext_iff_of_nodup ((List.nodup_range _).filter _) (lastK_argsort_nodup s k)]
    intro a
    rw [List.mem_filter, List.mem_range]
    constructor
    · intro h
      exact of_decide_eq_true h.2
    · intro h
      exact ⟨mem_lastK_argsort_lt h, decide_eq_true h⟩
  rw [hperm.length_eq, lastK_argsort_length]

/-! ### Lemmas about `selectCols`, `transform` and `fit` -/

/-- Boolean-mask column selection returns a sublist of the input columns:
every selected column is one of the originals, in original relative order
(and hence with all its rows intact). -/
theorem selectCols_sublist {γ : Type} (X : List γ) (mask : List Bool) :
    (selectCols X mask).Sublist X := by
  induction X generalizing mask with
  | nil => simp [selectCols]
  | cons x xs ih =>
    cases mask with
    | nil => simp [selectCols]
    | cons b bs =>
      cases b
      · simpa [selectCols] using (ih bs).cons x
      · simpa [selectCols] using (ih bs).cons₂ x

/-- When the mask length matches the column count, the number of selected
columns is the number of `true` entries in the mask. -/
theorem selectCols_length {γ : Type} (X : List γ) (mask : List Bool)
    (h : mask.length = X.length) :
    (selectCols X mask).length = mask.count true := by
  induction X generalizing mask with
  | nil =>
    cases mask with
    | nil => rfl
    | cons b bs => simp at h
  | cons x xs ih =>
    cases mask with
    | nil => simp at h
    | cons b bs =>
      have h2 : bs.length = xs.length := by simpa using h
      cases b
      · simpa [selectCols, List.count_cons] using ih bs h2
      · simpa [selectCols, List.count_cons] using ih bs h2

/-- An all-`true` mask of the right length selects every column. -/
theorem selectCols_replicate_true {γ : Type} (X : List γ) :
    selectCols X (List.replicate X.length true) = X := by
  induction X with
  | nil => rfl
  | cons x xs ih => simpa [selectCols, List.replicate_succ] using ih

/-- Unfolding of `transform` on a fitted selector (`scores` set): the mask
is computed (all-`false` for `k = 0`, else `maskOf`), then the two
`ValueError` checks run in source order, then the masked columns are
returned.  The input table `X` is an arbitrary list of columns of an
arbitrary type: `transform` never inspects column names or contents. -/
theorem transform_of_scores {α β γ : Type} (st : KBState α β) (s : List Int)
    (h : st.scores = some s) (X : List γ) :
    transform st X =
      (if ((if st.k = 0 then List.replicate s.length false else maskOf s st.k).any fun b => b)
          = false then
        .error (.valueError noFeatMsg)
      else if (if st.k = 0 then List.replicate s.length false else maskOf s st.k).length
          ≠ X.length then
        .error (.valueError shapeMsg)
      else
        .ok (selectCols X (if st.k = 0 then List.replicate s.length false else maskOf s st.k))) := by
  by_cases hk : st.k = 0 <;> simp [transform, getMask, h, hk]

/-- `fit` never changes `k`. -/
theorem fit_k {α β : Type} [DecidableEq β] (fc fr : List α → List β → ScoreRet)
    (st : KBState α β) (X : XInput α) (Y : YInput β) :
    ((fit fc fr st X Y).1).k = st.k := by
  cases X with
  | notDF t => rfl
  | df cols =>
    cases Y with
    | notSeries t => rfl
    | series ys =>
      cases hsf : resolveSF st.score_func ys <;>
        simp [fit, hsf, storeRet] <;>
        split <;> rfl

/-- On the DataFrame/Series path, `fit` either raises the non-callable
`TypeError` (leaving `scores`/`pvalues` untouched) or succeeds storing the
scoring result into the state. -/
theorem fit_df_series {α β : Type} [DecidableEq β] (fc fr : List α → List β → ScoreRet)
    (st : KBState α β) (cols : List α) (ys : List β) :
    fit fc fr st (.df cols) (.series ys) =
      (match resolveSF st.score_func ys with
        | .nonCallable v t =>
          ({ st with score_func := some (.nonCallable v t) }, some (.typeError (sfTypeMsg v t)))
        | .fClassif =>
          (storeRet { st with score_func := some .fClassif } (fc cols ys), none)
        | .fRegression =>
          (storeRet { st with score_func := some .fRegression } (fr cols ys), none)
        | .fn f =>
          (storeRet { st with score_func := some (.fn f) } (f cols ys), none)) := by
  cases hsf : resolveSF st.score_func ys <;> simp [fit, hsf]

theorem storeRet_k {α β : Type} (st : KBState α β) (ret : ScoreRet) :
    (storeRet st ret).k = st.k := by
  cases ret <;> rfl

theorem storeRet_score_func {α β : Type} (st : KBState α β) (ret : ScoreRet) :
    (storeRet st ret).score_func = st.score_func := by
  cases ret <;> rfl

theorem storeRet_scores {α β : Type} (st : KBState α β) (ret : ScoreRet) :
    (storeRet st ret).scores = some (retScores ret) := by
  cases ret <;> rfl

/-- A successful `fit` on a DataFrame and Series stores the scoring result
of the resolved score function: the post-state is `storeRet` of the
pre-state (with the resolved `score_func`) and some `ScoreRet`. -/
theorem fit_success_storeRet {α β : Type} [DecidableEq β]
    (fc fr : List α → List β → ScoreRet) (st : KBState α β) (cols : List α) (ys : List β)
    (h : (fit fc fr st (.df cols) (.series ys)).2 = none) :
    ∃ ret : ScoreRet,
      (fit fc fr st (.df cols) (.series ys)).1 =
        storeRet { st with score_func := some (resolveSF st.score_func ys) } ret := by
  rw [fit_df_series] at h ⊢
  cases hsf : resolveSF st.score_func ys
  case fClassif => exact ⟨fc cols ys, rfl⟩
  case fRegression => exact ⟨fr cols ys, rfl⟩
  case fn f => exact ⟨f cols ys, rfl⟩
  case nonCallable v t =>
    rw [hsf] at h
    exact Option.noConfusion h

/-- The `pvalues` component of a scoring-function result (`None` for the
single-array shape). -/
def retPvalues : ScoreRet → Option (List Int)
  | .single _ => none
  | .pair _ p => some p

theorem storeRet_pvalues {α β : Type} (st : KBState α β) (ret : ScoreRet) :
    (storeRet st ret).pvalues = retPvalues ret := by
  cases ret <;> rfl

theorem any_replicate_false (n : Nat) :
    ((List.replicate n false).any fun b => b) = false := by
  induction n with
  | zero => rfl
  | succ m ih => simp [List.replicate_succ, ih]

theorem any_replicate_true {n : Nat} (h : 0 < n) :
    ((List.replicate n true).any fun b => b) = true := by
  cases n with
  | zero => omega
  | succ m => simp [List.replicate_succ]

theorem toList_append (a b : String) : (a ++ b).toList = a.toList ++ b.toList := by
  simp [String.toList]

end SelectKBest

namespace SelectKBest

/-- Claim C6: on a selector with `k > 0` and no successful fit
(`scores = None`), `transform` raises the not-fitted `ValueError`
(source lines 67-70), whatever the input table. -/
theorem transform_unfitted_raises {α β γ : Type} (st : KBState α β)
    (h : st.scores = none) (hk : 0 < st.k) (X : List γ) :
    transform st X = .error (.valueError notFittedMsg) := by
  have hk0 : st.k ≠ 0 := by omega
  simp [transform, getMask, h, hk0]

/-- Witness for C6: a concrete unfitted selector with `k = 1`. -/
theorem transform_unfitted_raises_witness :
    transform (α := Nat) (β := Nat) ⟨1, none, none, none⟩ ([5, 7] : List Nat)
      = .error (.valueError notFittedMsg) :=
  transform_unfitted_raises ⟨1, none, none, none⟩ rfl (by decide) [5, 7]

/-- Counterexample to C7 as stated: with `k = 0` and `scores = None`
(selector never fitted), line 65 evaluates `self.scores.shape` and Python
raises an `AttributeError`, not the empty-selection `ValueError` — so
"regardless of the selector's other state" fails. -/
theorem transform_k0_unfitted_not_valueError :
    transform (α := Nat) (β := Nat) ⟨0, none, none, none⟩ ([42] : List Nat)
        = .error (.attributeError noneShapeMsg) ∧
      transform (α := Nat) (β := Nat) ⟨0, none, none, none⟩ ([42] : List Nat)
        ≠ .error (.valueError noFeatMsg) := by
  refine ⟨rfl, ?_⟩
  intro hc
  rw [(rfl : transform (α := Nat) (β := Nat) ⟨0, none, none, none⟩ ([42] : List Nat)
      = .error (.attributeError noneShapeMsg))] at hc
  injection hc with h1
  exact PyError.noConfusion h1

/-- Claim C7 (amended): on a selector with `k = 0` whose `scores` are set
(i.e. after a successful fit), every `transform` call fails with the
empty-selection `ValueError`, regardless of the input table; the mask
computed for `k = 0` is all-`false` with the length of `scores`. -/
theorem transform_k0_fitted_empty_error {α β γ : Type} (st : KBState α β) (s : List Int)
    (hk : st.k = 0) (h : st.scores = some s) :
    (∀ X : List γ, transform st X = .error (.valueError noFeatMsg)) ∧
      getMask st.k st.scores = .ok (List.replicate s.length false) := by
  constructor
  · intro X
    simp [transform, getMask, hk, h, any_replicate_false]
  · simp [getMask, hk, h]

/-- Witness for C7 (amended): a concrete fitted selector with `k = 0`. -/
theorem transform_k0_fitted_empty_error_witness :
    transform (α := Nat) (β := Nat) ⟨0, none, some [5, 3], none⟩ ([10, 20] : List Nat)
        = .error (.valueError noFeatMsg) ∧
      getMask 0 (some [5, 3]) = .ok [false, false] :=
  ⟨(transform_k0_fitted_empty_error (α := Nat) (β := Nat) (γ := Nat)
      ⟨0, none, some [5, 3], none⟩ [5, 3] rfl rfl).1 [10, 20],
    (transform_k0_fitted_empty_error (α := Nat) (β := Nat) (γ := Nat)
      ⟨0, none, some [5, 3], none⟩ [5, 3] rfl rfl).2⟩

/-- Counterexample to C5 as stated: a fitted selector may have zero
features (`scores = []`, reachable from a `fit` whose scoring function
returns an empty array); then `k = 1 ≥ n_features = 0` with `k > 0`, but
`transform` raises the empty-selection `ValueError` instead of returning
all (zero) columns without error. -/
theorem transform_k_ge_n_zero_features_errors :
    (fit (α := Nat) (β := Nat) (fun _ _ => .single [0]) (fun _ _ => .single [0])
        ⟨1, some (.fn fun _ _ => .single []), none, none⟩ (.df []) (.series [7])
      = (⟨1, some (.fn fun _ _ => .single []), some [], none⟩, none)) ∧
      0 < 1 ∧ (([] : List Int).length ≤ 1) ∧
      transform (α := Nat) (β := Nat) ⟨1, some (.fn fun _ _ => .single []), some [], none⟩
          ([] : List Nat)
        = .error (.valueError noFeatMsg) :=
  ⟨rfl, by decide, by decide, rfl⟩

/-- Claim C5 (amended): on a fitted selector with at least one feature and
`k ≥ n_features` (`k` positive), `transform` returns all columns in
original order with no error; in particular `k > n_features` is not an
error. -/
theorem transform_k_ge_n_selects_all {α β γ : Type} (st : KBState α β) (s : List Int)
    (X : List γ) (h : st.scores = some s) (hn : 0 < s.length)
    (hk : s.length ≤ st.k) (hX : s.length = X.length) :
    transform st X = .ok X := by
  have hk0 : st.k ≠ 0 := by omega
  have hmask : maskOf s st.k = List.replicate s.length true := by
    rw [maskOf_eq_map, lastK_argsort_of_le s st.k hk]
    apply List.ext_getElem
    · simp
    · intro i hi hi2
      simp only [List.getElem_map, List.getElem_range, List.getElem_replicate]
      rw [decide_eq_true ((mem_argsort s i).mpr (by simpa using hi))]
  rw [transform_of_scores st s h X, if_neg hk0, hmask, any_replicate_true hn,
    List.length_replicate, hX]
  simp [selectCols_replicate_true]

/-- Witness for C5 (amended): `k = 7 > n_features = 3` selects all three
columns with no error. -/
theorem transform_k_ge_n_selects_all_witness :
    transform (α := Nat) (β := Nat) ⟨7, none, some [4, 9, 2], none⟩ ([10, 20, 30] : List Nat)
      = .ok [10, 20, 30] :=
  transform_k_ge_n_selects_all ⟨7, none, some [4, 9, 2], none⟩ [4, 9, 2] [10, 20, 30]
    rfl (by decide) (by decide) (by decide)

/-- Claim C1: for a fit followed by a transform on the same table that
raises no error, with `0 < k ≤ n_features`, the result has exactly `k`
columns and is a sublist of the original columns: every output column is
one of `X`'s columns (hence with all its rows), in original relative
order. -/
theorem transform_after_fit_selects_k {α β : Type} [DecidableEq β]
    (fc fr : List α → List β → ScoreRet) (st st2 : KBState α β)
    (cols : List α) (ys : List β) (res : List α)
    (hfit : fit fc fr st (.df cols) (.series ys) = (st2, none))
    (htr : transform st2 cols = .ok res)
    (hk : 0 < st.k) (hkn : st.k ≤ cols.length) :
    res.length = st.k ∧ res.Sublist cols := by
  have hk2 : st2.k = st.k := by
    have h := fit_k fc fr st (.df cols) (.series ys)
    rw [hfit] at h
    exact h
  obtain ⟨s, hs⟩ : ∃ s, st2.scores = some s := by
    have h2 : (fit fc fr st (.df cols) (.series ys)).2 = none := by rw [hfit]
    obtain ⟨ret, hret⟩ := fit_success_storeRet fc fr st cols ys h2
    refine ⟨retScores ret, ?_⟩
    have h1 : (fit fc fr st (.df cols) (.series ys)).1 = st2 := by rw [hfit]
    rw [← h1, hret, storeRet_scores]
  rw [transform_of_scores st2 s hs cols] at htr
  have hk0 : st2.k ≠ 0 := by omega
  rw [if_neg hk0] at htr
  by_cases hany : ((maskOf s st2.k).any fun b => b) = false
  · rw [if_pos hany] at htr
    exact Except.noConfusion htr
  · rw [if_neg hany] at htr
    by_cases hlen : (maskOf s st2.k).length ≠ cols.length
    · rw [if_pos hlen] at htr
      exact Except.noConfusion htr
    · rw [if_neg hlen] at htr
      have hres : selectCols cols (maskOf s st2.k) = res := by
        injection htr
      have hlen2 : (maskOf s st2.k).length = cols.length := not_ne_iff.mp hlen
      have hslen : s.length = cols.length := by
        rw [← maskOf_length s st2.k]
        exact hlen2
      constructor
      · rw [← hres, selectCols_length cols _ hlen2, maskOf_count]
        omega
      · rw [← hres]
        exact selectCols_sublist cols _

/-- Witness for C1: fitting a 4-column table with a scorer returning
`[5, 3, 5, 1]` and `k = 2`, then transforming the same table, keeps
exactly the 2 highest-scoring columns (the first and third), in order. -/
theorem transform_after_fit_selects_k_witness :
    fit (α := List Int) (β := Int) (fun _ _ => .single []) (fun _ _ => .single [])
        ⟨2, some (.fn fun _ _ => .single [5, 3, 5, 1]), none, none⟩
        (.df [[1], [2], [3], [4]]) (.series [1, 2])
      = (⟨2, some (.fn fun _ _ => .single [5, 3, 5, 1]), some [5, 3, 5, 1], none⟩, none) ∧
    transform (α := List Int) (β := Int)
        ⟨2, some (.fn fun _ _ => .single [5, 3, 5, 1]), some [5, 3, 5, 1], none⟩
        [[1], [2], [3], [4]]
      = .ok [[1], [3]] ∧
    ([[1], [3]] : List (List Int)).length = 2 ∧
    ([[1], [3]] : List (List Int)).Sublist [[1], [2], [3], [4]] :=
  ⟨rfl, rfl,
    (transform_after_fit_selects_k (fun _ _ => .single []) (fun _ _ => .single [])
      ⟨2, some (.fn fun _ _ => .single [5, 3, 5, 1]), none, none⟩
      ⟨2, some (.fn fun _ _ => .single [5, 3, 5, 1]), some [5, 3, 5, 1], none⟩
      [[1], [2], [3], [4]] [1, 2] [[1], [3]] rfl rfl (by decide) (by decide)).1,
    (transform_after_fit_selects_k (fun _ _ => .single []) (fun _ _ => .single [])
      ⟨2, some (.fn fun _ _ => .single [5, 3, 5, 1]), none, none⟩
      ⟨2, some (.fn fun _ _ => .single [5, 3, 5, 1]), some [5, 3, 5, 1], none⟩
      [[1], [2], [3], [4]] [1, 2] [[1], [3]] rfl rfl (by decide) (by decide)).2⟩

/-- Claim C2: for any fitted scores vector and `k > 0`, the mask built by
`__get_mask` is `true` exactly at the indices among the last `k` entries
of the (unique) stable ascending argsort of the scores — ties keep
original column order, so at the cutoff boundary the tied feature with the
larger original index survives.  On scores `[5, 3, 5, 1]` the stable
argsort is `[3, 1, 0, 2]`, and with `k = 2` the mask selects exactly
indices `{0, 2}`. -/
theorem mask_selects_last_k_stable :
    (∀ (s : List Int) (L : List Nat) (k i : Nat), IsStableArgsort s L → 0 < k →
        ((maskOf s k).getD i false = true ↔ i ∈ lastK L k)) ∧
      argsort [5, 3, 5, 1] = [3, 1, 0, 2] ∧
      lastK (argsort [5, 3, 5, 1]) 2 = [0, 2] ∧
      maskOf [5, 3, 5, 1] 2 = [true, false, true, false] := by
  refine ⟨?_, by decide, by decide, by decide⟩
  intro s L k i hL _
  rw [argsort_unique s L hL]
  exact maskOf_getD s k i

/-- Witness for C2: instantiating the universal part on the concrete
stable argsort `[3, 1, 0, 2]` of `[5, 3, 5, 1]`. -/
theorem mask_selects_last_k_stable_witness :
    (maskOf [5, 3, 5, 1] 2).getD 0 false = true ↔ 0 ∈ lastK [3, 1, 0, 2] 2 :=
  mask_selects_last_k_stable.1 [5, 3, 5, 1] [3, 1, 0, 2] 2 0 ⟨by decide, by decide⟩ (by decide)

/-- Claim C3: when `score_func` is unset, `fit` resolves it from the
number of distinct target values (`≤ 15` picks `f_classif`, else
`f_regression`), stores the resolved function, and succeeds; when
`score_func` is already set (as it is after any fit), every later `fit`
keeps it unchanged — regardless of the new target — so the default is not
re-derived unless the slot is cleared again. -/
theorem fit_resolves_and_reuses_score_func {α β : Type} [DecidableEq β]
    (fc fr : List α → List β → ScoreRet) (st : KBState α β) :
    (st.score_func = none →
      ∀ (cols : List α) (ys : List β),
        (fit fc fr st (.df cols) (.series ys)).1.score_func
            = some (if nunique ys ≤ 15 then SFVal.fClassif else SFVal.fRegression) ∧
          (fit fc fr st (.df cols) (.series ys)).2 = none) ∧
    (∀ f : SFVal α β, st.score_func = some f →
      ∀ (X : XInput α) (Y : YInput β), (fit fc fr st X Y).1.score_func = some f) := by
  constructor
  · intro h cols ys
    rw [fit_df_series]
    have hres : resolveSF st.score_func ys
        = if nunique ys ≤ 15 then SFVal.fClassif else SFVal.fRegression := by
      rw [h, resolveSF]
    by_cases hny : nunique ys ≤ 15
    · rw [if_pos hny] at hres ⊢
      rw [hres]
      exact ⟨storeRet_score_func _ _, rfl⟩
    · rw [if_neg hny] at hres ⊢
      rw [hres]
      exact ⟨storeRet_score_func _ _, rfl⟩
  · intro f hf X Y
    cases X with
    | notDF t => simpa [fit] using hf
    | df cols =>
      cases Y with
      | notSeries t => simpa [fit] using hf
      | series ys =>
        rw [fit_df_series]
        have hres : resolveSF st.score_func ys = f := by rw [hf, resolveSF]
        rw [hres]
        cases f
        case fClassif => exact storeRet_score_func _ _
        case fRegression => exact storeRet_score_func _ _
        case fn g => exact storeRet_score_func _ _
        case nonCallable v t => rfl

/-- Witness for C3: a 3-class target auto-picks `f_classif` and the fit
succeeds; an already-set custom scorer survives a fit on a 16-class
target untouched. -/
theorem fit_resolves_and_reuses_score_func_witness :
    ((fit (α := Nat) (β := Nat) (fun _ _ => .single [1]) (fun _ _ => .single [2])
        ⟨10, none, none, none⟩ (.df [5]) (.series [0, 1, 2, 0])).1.score_func
      = some (if nunique [0, 1, 2, 0] ≤ 15 then SFVal.fClassif else SFVal.fRegression)) ∧
    ((fit (α := Nat) (β := Nat) (fun _ _ => .single [1]) (fun _ _ => .single [2])
        ⟨10, some .fRegression, none, none⟩ (.df [5])
        (.series [0, 1, 2, 0])).1.score_func = some .fRegression) :=
  ⟨((fit_resolves_and_reuses_score_func (fun _ _ => .single [1]) (fun _ _ => .single [2])
      ⟨10, none, none, none⟩).1 rfl [5] [0, 1, 2, 0]).1,
    (fit_resolves_and_reuses_score_func (fun _ _ => .single [1]) (fun _ _ => .single [2])
      ⟨10, some .fRegression, none, none⟩).2 .fRegression rfl (.df [5]) (.series [0, 1, 2, 0])⟩

/-- Claim C4: `fit_transform(X, y)` is `fit(X, y)` then `transform(X)` on
the same `X`: on a DataFrame it returns `transform`'s result on `fit`'s
post-state when `fit` succeeds, and exactly `fit`'s error when `fit`
fails; on a non-DataFrame `X`, `fit`'s `X`-validation error is raised
first and `transform` never runs. -/
theorem fit_transform_is_fit_then_transform {α β : Type} [DecidableEq β]
    (fc fr : List α → List β → ScoreRet) (st : KBState α β) (Y : YInput β) :
    (∀ cols : List α,
      fit_transform fc fr st (.df cols) Y =
        ((fit fc fr st (.df cols) Y).1,
          match (fit fc fr st (.df cols) Y).2 with
          | some e => .error e
          | none => transform (fit fc fr st (.df cols) Y).1 cols)) ∧
    (∀ t : String,
      fit_transform fc fr st (.notDF t) Y = (st, .error (.typeError xTypeMsg))) := by
  constructor
  · intro cols
    rcases hf : fit fc fr st (.df cols) Y with ⟨st1, e⟩
    cases e with
    | none => simp [fit_transform, hf]
    | some err => simp [fit_transform, hf]
  · intro t
    rfl

/-- Claim C8: `fit`'s type validation — a non-DataFrame `X`, a non-Series
`y`, or a non-callable resolved `score_func` each raise a `TypeError`
whose message names the expected type (for `X`/`y`) or the offending value
and its type (for `score_func`); the returned state is the input state, so
`scores`/`pvalues` are never mutated, and the result does not depend on
the scoring functions `fc`/`fr` — the error fires before any scoring. -/
theorem fit_type_errors {α β : Type} [DecidableEq β]
    (fc fr : List α → List β → ScoreRet) (st : KBState α β) :
    (∀ (t : String) (Y : YInput β),
        fit fc fr st (.notDF t) Y = (st, some (.typeError xTypeMsg))) ∧
    (∀ (cols : List α) (t : String),
        fit fc fr st (.df cols) (.notSeries t) = (st, some (.typeError yTypeMsg))) ∧
    (∀ v ty : String, st.score_func = some (.nonCallable v ty) →
      ∀ (cols : List α) (ys : List β),
        fit fc fr st (.df cols) (.series ys) = (st, some (.typeError (sfTypeMsg v ty)))) ∧
    "pandas.core.frame.DataFrame".toList <:+: xTypeMsg.toList ∧
    "pandas.core.series.Series".toList <:+: yTypeMsg.toList ∧
    (∀ v ty : String,
      v.toList <:+: (sfTypeMsg v ty).toList ∧ ty.toList <:+: (sfTypeMsg v ty).toList) := by
  refine ⟨fun t Y => rfl, fun cols t => rfl, ?_,
    ⟨"Feature dataframe is not a valid dataframe.\nExpected object type: ".toList, [],
      by decide⟩,
    ⟨"Target column is not a valid series.\nExpected object type: ".toList, [],
      by decide⟩, ?_⟩
  · intro v ty hf cols ys
    rw [fit_df_series]
    have hres : resolveSF st.score_func ys = .nonCallable v ty := by
      rw [hf, resolveSF]
    rw [hres]
    show ({ st with score_func := some (SFVal.nonCallable v ty) },
        (some (PyError.typeError (sfTypeMsg v ty)) : Option PyError))
      = (st, some (.typeError (sfTypeMsg v ty)))
    have hst : { st with score_func := some (SFVal.nonCallable v ty) } = st := by
      cases st
      simp_all
    rw [hst]
  · intro v ty
    simp only [sfTypeMsg, toList_append]
    constructor
    · exact ⟨"The score function should be a callable, ".toList,
        " of type (".toList ++ ty.toList ++ ") was passed.".toList,
        by simp [List.append_assoc]⟩
    · exact ⟨"The score function should be a callable, ".toList ++ v.toList ++ " of type (".toList,
        ") was passed.".toList,
        by simp [List.append_assoc]⟩

/-- Witness for C8: the spec's Scenario D — `score_func` set to the
string `"invalid"` — raises the `TypeError` with the value and type
interpolated, leaving the state untouched, for arbitrary scorers. -/
theorem fit_type_errors_witness :
    fit (α := Nat) (β := Nat) (fun _ _ => .single [1]) (fun _ _ => .single [2])
        ⟨10, some (.nonCallable "invalid" "class str"), none, none⟩
        (.df [1, 2]) (.series [3])
      = (⟨10, some (.nonCallable "invalid" "class str"), none, none⟩,
          some (.typeError (sfTypeMsg "invalid" "class str"))) :=
  (fit_type_errors (fun _ _ => .single [1]) (fun _ _ => .single [2])
    ⟨10, some (.nonCallable "invalid" "class str"), none, none⟩).2.2.1
    "invalid" "class str" rfl [1, 2] [3]

/-- Claim C9: a successful (re-)fit overwrites `scores` and `pvalues`
entirely: two states sharing only `score_func` produce identical
`scores`/`pvalues` after fitting the same data, both equal to `storeRet`
of the same scoring result — in particular `scores` comes from the new
result and `pvalues` is reset to `None` when the result has no p-values
(`retPvalues`), so nothing from an earlier fit can reach a later mask. -/
theorem refit_overwrites_scores {α β : Type} [DecidableEq β]
    (fc fr : List α → List β → ScoreRet) (st1 st2 : KBState α β)
    (hsf : st1.score_func = st2.score_func) (cols : List α) (ys : List β)
    (h1 : (fit fc fr st1 (.df cols) (.series ys)).2 = none) :
    ((fit fc fr st1 (.df cols) (.series ys)).1.scores
        = (fit fc fr st2 (.df cols) (.series ys)).1.scores ∧
      (fit fc fr st1 (.df cols) (.series ys)).1.pvalues
        = (fit fc fr st2 (.df cols) (.series ys)).1.pvalues) ∧
    (∃ ret : ScoreRet,
      (fit fc fr st1 (.df cols) (.series ys)).1
          = storeRet { st1 with score_func := some (resolveSF st1.score_func ys) } ret ∧
      (fit fc fr st2 (.df cols) (.series ys)).1
          = storeRet { st2 with score_func := some (resolveSF st1.score_func ys) } ret ∧
      (fit fc fr st1 (.df cols) (.series ys)).1.scores = some (retScores ret) ∧
      (fit fc fr st1 (.df cols) (.series ys)).1.pvalues = retPvalues ret) := by
  rw [fit_df_series fc fr st1 cols ys] at h1 ⊢
  rw [fit_df_series fc fr st2 cols ys]
  rw [← hsf]
  cases hr : resolveSF st1.score_func ys
  case fClassif =>
    refine ⟨⟨?_, ?_⟩, fc cols ys, rfl, rfl, ?_, ?_⟩
    · exact (storeRet_scores _ _).trans (storeRet_scores _ _).symm
    · exact (storeRet_pvalues _ _).trans (storeRet_pvalues _ _).symm
    · exact storeRet_scores _ _
    · exact storeRet_pvalues _ _
  case fRegression =>
    refine ⟨⟨?_, ?_⟩, fr cols ys, rfl, rfl, ?_, ?_⟩
    · exact (storeRet_scores _ _).trans (storeRet_scores _ _).symm
    · exact (storeRet_pvalues _ _).trans (storeRet_pvalues _ _).symm
    · exact storeRet_scores _ _
    · exact storeRet_pvalues _ _
  case fn g =>
    refine ⟨⟨?_, ?_⟩, g cols ys, rfl, rfl, ?_, ?_⟩
    · exact (storeRet_scores _ _).trans (storeRet_scores _ _).symm
    · exact (storeRet_pvalues _ _).trans (storeRet_pvalues _ _).symm
    · exact storeRet_scores _ _
    · exact storeRet_pvalues _ _
  case nonCallable v t =>
    rw [hr] at h1
    exact Option.noConfusion h1

/-- Witness for C9: a previously fitted state (`scores = [7]`,
`pvalues = [6]`) and a fresh state produce the same `scores` after
re-fitting the same data with the same scorer. -/
theorem refit_overwrites_scores_witness :
    (fit (α := Nat) (β := Nat) (fun _ _ => .single [1, 2]) (fun _ _ => .single [])
        ⟨2, some .fClassif, some [7], some [6]⟩ (.df [4, 5]) (.series [0, 1])).1.scores
      = (fit (α := Nat) (β := Nat) (fun _ _ => .single [1, 2]) (fun _ _ => .single [])
        ⟨2, some .fClassif, none, none⟩ (.df [4, 5]) (.series [0, 1])).1.scores :=
  (refit_overwrites_scores (fun _ _ => .single [1, 2]) (fun _ _ => .single [])
    ⟨2, some .fClassif, some [7], some [6]⟩ ⟨2, some .fClassif, none, none⟩
    rfl [4, 5] [0, 1] rfl).1.1

/-- Claim C10 (implicit): on a fitted selector, `transform` validates its
input only through the mask: the mask always materialises (no table-type,
column-name or column-content check — `X` here is a list of columns of an
arbitrary type, unrelated to the fitted data), the only failure modes are
the empty-selection `ValueError` (checked first) and the shape-mismatch
`ValueError`, and any table whose column count matches the mask length is
transformed successfully whenever the mask selects something. -/
theorem transform_only_checks_column_count {α β γ : Type} (st : KBState α β) (s : List Int)
    (h : st.scores = some s) (X : List γ) :
    ∃ mask : List Bool,
      getMask st.k st.scores = .ok mask ∧
      mask.length = s.length ∧
      transform st X =
        (if (mask.any fun b => b) = false then .error (.valueError noFeatMsg)
         else if mask.length ≠ X.length then .error (.valueError shapeMsg)
         else .ok (selectCols X mask)) ∧
      ((mask.any fun b => b) = true → mask.length = X.length →
        transform st X = .ok (selectCols X mask)) := by
  by_cases hk : st.k = 0
  · refine ⟨List.replicate s.length false, by simp [getMask, hk, h], by simp, ?_, ?_⟩
    · rw [transform_of_scores st s h X, if_pos hk]
    · intro hany hlen
      rw [transform_of_scores st s h X, if_pos hk, hany]
      simp [hlen]
  · refine ⟨maskOf s st.k, by simp [getMask, hk, h], maskOf_length s st.k, ?_, ?_⟩
    · rw [transform_of_scores st s h X, if_neg hk]
    · intro hany hlen
      rw [transform_of_scores st s h X, if_neg hk, hany]
      simp [hlen]

/-- Witness for C10: the selector fitted on integer scores `[5, 3, 5, 1]`
transforms a 4-column table of strings — a type and content it never saw
during fit. -/
theorem transform_only_checks_column_count_witness :
    ∃ mask : List Bool,
      getMask 2 (some [5, 3, 5, 1]) = .ok mask ∧
      mask.length = ([5, 3, 5, 1] : List Int).length ∧
      transform (α := Nat) (β := Nat) ⟨2, none, some [5, 3, 5, 1], none⟩
          (["a", "b", "c", "d"] : List String) =
        (if (mask.any fun b => b) = false then .error (.valueError noFeatMsg)
         else if mask.length ≠ (["a", "b", "c", "d"] : List String).length then
           .error (.valueError shapeMsg)
         else .ok (selectCols ["a", "b", "c", "d"] mask)) ∧
      ((mask.any fun b => b) = true
        → mask.length = (["a", "b", "c", "d"] : List String).length
        → transform (α := Nat) (β := Nat) ⟨2, none, some [5, 3, 5, 1], none⟩
            ["a", "b", "c", "d"] = .ok (selectCols ["a", "b", "c", "d"] mask)) :=
  transform_only_checks_column_count ⟨2, none, some [5, 3, 5, 1], none⟩ [5, 3, 5, 1]
    rfl ["a", "b", "c", "d"]
